import Mathlib

/-!
# Verification of the transactional metadata index
(`rust/worker/src/index/metadata/types.rs`)

Shallow embedding of the `BlockfileMetadataIndex` implementation: its error
taxonomy, the composite-key encoding `kv_to_blockfile_key`, the staging buffer
(`uncommitted_rbms`, a `HashMap<BlockfileKey, RoaringBitmap>` modelled as an
association list with replace-on-insert semantics), and the five operations
`begin_transaction`, `commit_transaction`, `set`, `delete`, `get`.

Modelling conventions:
* A `RoaringBitmap` is a finite set of naturals (`Finset ℕ`); the `u32`
  conversion guard in `set`/`delete` keeps every inserted element below `2^32`.
* The `f32` payload of `MetadataIndexValue::Float` / `Key::Float` is carried as
  its bit pattern (a `Nat`); only its (decidable) equality is ever used.
* `Box<dyn ChromaError>` results are modelled by `DynChromaError`: either one of
  this module's three typed errors, or an opaque store-originated error carrying
  a numeric payload. Store operations return raw `Nat` error payloads; the `?`
  propagation in the Rust code corresponds to wrapping the payload in
  `DynChromaError.store`, which preserves it unchanged.
* A Rust panic (`unwrap` on `get_mut` or on `usize → u32` conversion) is
  modelled by `Option`: `none` is a panic, `some` a normal return.
* The `Blockfile` collaborator is a trait whose implementations are not part of
  the analysed source; the index is therefore parametrised by an abstract
  store-operations record `BlockfileOps σ` over an abstract store state `σ`.
-/

namespace ChromaMetadataIndex

/-- The error enum `MetadataIndexError` of the metadata index module. -/
inductive MetadataIndexError
  | NotFoundError
  | InTransaction
  | NotInTransaction
deriving DecidableEq, Repr

/-- `Box<dyn ChromaError>`: either one of this module's typed errors or an
opaque error originated by the blockfile collaborator, identified by a numeric
payload. Propagating a store error "unchanged" preserves the payload. -/
inductive DynChromaError
  | meta (e : MetadataIndexError)
  | store (code : Nat)
deriving DecidableEq, Repr

/-- Decidable equality of `Except` results, needed to evaluate concrete runs. -/
instance {ε α : Type} [DecidableEq ε] [DecidableEq α] : DecidableEq (Except ε α) := fun x y =>
  match x, y with
  | Except.ok a, Except.ok b =>
      if h : a = b then isTrue (by rw [h]) else isFalse (fun hc => by cases hc; exact h rfl)
  | Except.ok _, Except.error _ => isFalse (fun hc => by cases hc)
  | Except.error _, Except.ok _ => isFalse (fun hc => by cases hc)
  | Except.error e, Except.error f =>
      if h : e = f then isTrue (by rw [h]) else isFalse (fun hc => by cases hc; exact h rfl)

/-- The tagged value union `MetadataIndexValue` (text / f32 / bool).
The float payload is its bit pattern. -/
inductive MetadataIndexValue
  | String (s : String)
  | Float (bits : Nat)
  | Bool (b : Bool)
deriving DecidableEq, Repr

/-- The blockstore `Key` enum variants targeted by `kv_to_blockfile_key`. -/
inductive Key
  | String (s : String)
  | Float (bits : Nat)
  | Bool (b : Bool)
deriving DecidableEq, Repr

/-- A blockstore composite key: a field name paired with a typed key. -/
structure BlockfileKey where
  name : String
  key : Key
deriving DecidableEq, Repr

/-- The blockstore `Value` enum, restricted to what this module inspects:
a roaring-bitmap value, or any other variant (collapsed into one tag, since
the index matches them all with a single `_` arm). -/
inductive Value
  | RoaringBitmapValue (rbm : Finset ℕ)
  | OtherValue
deriving DecidableEq

/-- `kv_to_blockfile_key`: encode a field name and typed value into a
composite blockstore key. -/
def kv_to_blockfile_key (key : String) (value : MetadataIndexValue) : BlockfileKey :=
  let blockfilekey_key :=
    match value with
    | MetadataIndexValue.String s => Key.String s
    | MetadataIndexValue.Float f => Key.Float f
    | MetadataIndexValue.Bool b => Key.Bool b
  BlockfileKey.mk key blockfilekey_key

/-- The `Blockfile` collaborator interface (`get`/`set`/`begin`/`commit`) over
an abstract store state `σ`. Each fallible call returns the successor store
state together with a result; errors are opaque numeric payloads. -/
structure BlockfileOps (σ : Type) where
  get : σ → BlockfileKey → Except Nat Value
  set : σ → BlockfileKey → Value → σ × Except Nat Unit
  begin_transaction : σ → σ × Except Nat Unit
  commit_transaction : σ → σ × Except Nat Unit

/-! ## The staging buffer (`HashMap<BlockfileKey, RoaringBitmap>`) -/

/-- Association-list lookup for the staging buffer. -/
def lookupBuf : List (BlockfileKey × Finset ℕ) → BlockfileKey → Option (Finset ℕ)
  | [], _ => none
  | (k1, v1) :: rest, k => if k1 = k then some v1 else lookupBuf rest k

/-- `HashMap::contains_key` on the staging buffer. -/
def containsBuf (l : List (BlockfileKey × Finset ℕ)) (k : BlockfileKey) : Bool :=
  (lookupBuf l k).isSome

/-- `HashMap::insert` on the staging buffer: replace the value for `k` if
present, otherwise append the pair. -/
def insertBuf : List (BlockfileKey × Finset ℕ) → BlockfileKey → Finset ℕ →
    List (BlockfileKey × Finset ℕ)
  | [], k, v => [(k, v)]
  | (k1, v1) :: rest, k, v =>
      if k1 = k then (k, v) :: rest else (k1, v1) :: insertBuf rest k v

/-! ## The index and its operations -/

/-- `BlockfileMetadataIndex`: the wrapped blockfile state, the transaction
flag, and the staging buffer. -/
structure BlockfileMetadataIndex (σ : Type) where
  blockfile : σ
  in_transaction : Bool
  uncommitted_rbms : List (BlockfileKey × Finset ℕ)
deriving DecidableEq

namespace BlockfileMetadataIndex

/-- `BlockfileMetadataIndex::new`: wrap a blockfile, flag closed, buffer empty. -/
def new (init_blockfile : σ) : BlockfileMetadataIndex σ :=
  ⟨init_blockfile, false, []⟩

/-- `look_up_key_and_populate_uncommitted_rbms`: if the key is not yet staged,
read it from the blockfile; an `Ok(RoaringBitmapValue)` seeds the buffer with
the committed bitmap, and every other outcome (error or wrong-typed value —
one `_` match arm in the source) seeds it with an empty bitmap. The Rust
function returns `Ok(())` on every path, so the model returns just the updated
index. -/
def look_up_key_and_populate_uncommitted_rbms (ops : BlockfileOps σ)
    (idx : BlockfileMetadataIndex σ) (key : BlockfileKey) : BlockfileMetadataIndex σ :=
  if containsBuf idx.uncommitted_rbms key then idx
  else
    match ops.get idx.blockfile key with
    | Except.ok (Value.RoaringBitmapValue rbm) =>
        { idx with uncommitted_rbms := insertBuf idx.uncommitted_rbms key rbm }
    | _ =>
        { idx with uncommitted_rbms := insertBuf idx.uncommitted_rbms key ∅ }

/-- `begin_transaction`: guard on the flag, then open the store transaction
(propagating its failure wrapped as a store error), then set the flag. -/
def begin_transaction (ops : BlockfileOps σ) (idx : BlockfileMetadataIndex σ) :
    BlockfileMetadataIndex σ × Except DynChromaError Unit :=
  if idx.in_transaction then
    (idx, Except.error (DynChromaError.meta MetadataIndexError.InTransaction))
  else
    match ops.begin_transaction idx.blockfile with
    | (s, Except.error e) =>
        ({ idx with blockfile := s }, Except.error (DynChromaError.store e))
    | (s, Except.ok _) =>
        ({ idx with blockfile := s, in_transaction := true }, Except.ok ())

/-- The commit flush loop: `for (key, rbm) in self.uncommitted_rbms.drain()
{ self.blockfile.set(...) }` — each store `set` result is discarded, only the
successor store state is kept. -/
def flushStore (ops : BlockfileOps σ) (buf : List (BlockfileKey × Finset ℕ)) (s : σ) : σ :=
  buf.foldl (fun acc kv => (ops.set acc kv.1 (Value.RoaringBitmapValue kv.2)).1) s

/-- `commit_transaction`: guard on the flag; drain the buffer into the store
(set results ignored, buffer left empty by `drain`); commit the store
transaction, propagating its failure (at which point the flag is still open and
the buffer already drained); on success close the flag and clear the buffer. -/
def commit_transaction (ops : BlockfileOps σ) (idx : BlockfileMetadataIndex σ) :
    BlockfileMetadataIndex σ × Except DynChromaError Unit :=
  if idx.in_transaction = false then
    (idx, Except.error (DynChromaError.meta MetadataIndexError.NotInTransaction))
  else
    let s1 := flushStore ops idx.uncommitted_rbms idx.blockfile
    match ops.commit_transaction s1 with
    | (s2, Except.error e) => (⟨s2, true, []⟩, Except.error (DynChromaError.store e))
    | (s2, Except.ok _) => (⟨s2, false, []⟩, Except.ok ())

/-- `set`: guard on the flag; encode the key; seed-on-first-touch; then
`uncommitted_rbms.get_mut(&key).unwrap()` (a `none` result models that panic)
and `rbm.insert(offset_id.try_into().unwrap())` (a `none` result models the
`usize → u32` conversion panic when `offset_id ≥ 2^32`). -/
def set (ops : BlockfileOps σ) (idx : BlockfileMetadataIndex σ)
    (key : String) (value : MetadataIndexValue) (offset_id : Nat) :
    Option (BlockfileMetadataIndex σ × Except DynChromaError Unit) :=
  if idx.in_transaction = false then
    some (idx, Except.error (DynChromaError.meta MetadataIndexError.NotInTransaction))
  else
    let blockfilekey := kv_to_blockfile_key key value
    let idx1 := look_up_key_and_populate_uncommitted_rbms ops idx blockfilekey
    match lookupBuf idx1.uncommitted_rbms blockfilekey with
    | none => none
    | some rbm =>
        if offset_id < 2 ^ 32 then
          some ({ idx1 with uncommitted_rbms :=
                    insertBuf idx1.uncommitted_rbms blockfilekey (insert offset_id rbm) },
                Except.ok ())
        else none

/-- `delete`: same shape as `set`, with `rbm.remove` instead of `rbm.insert`. -/
def delete (ops : BlockfileOps σ) (idx : BlockfileMetadataIndex σ)
    (key : String) (value : MetadataIndexValue) (offset_id : Nat) :
    Option (BlockfileMetadataIndex σ × Except DynChromaError Unit) :=
  if idx.in_transaction = false then
    some (idx, Except.error (DynChromaError.meta MetadataIndexError.NotInTransaction))
  else
    let blockfilekey := kv_to_blockfile_key key value
    let idx1 := look_up_key_and_populate_uncommitted_rbms ops idx blockfilekey
    match lookupBuf idx1.uncommitted_rbms blockfilekey with
    | none => none
    | some rbm =>
        if offset_id < 2 ^ 32 then
          some ({ idx1 with uncommitted_rbms :=
                    insertBuf idx1.uncommitted_rbms blockfilekey (Finset.erase rbm offset_id) },
                Except.ok ())
        else none

/-- `get`: guard on the flag (read isolation); read the encoded key from the
blockfile; an `Ok(RoaringBitmapValue)` is returned, every other outcome (store
failure or wrong-typed value — one `_` match arm) becomes `NotFoundError`. -/
def get (ops : BlockfileOps σ) (idx : BlockfileMetadataIndex σ)
    (key : String) (value : MetadataIndexValue) : Except DynChromaError (Finset ℕ) :=
  if idx.in_transaction then
    Except.error (DynChromaError.meta MetadataIndexError.InTransaction)
  else
    match ops.get idx.blockfile (kv_to_blockfile_key key value) with
    | Except.ok (Value.RoaringBitmapValue rbm) => Except.ok rbm
    | _ => Except.error (DynChromaError.meta MetadataIndexError.NotFoundError)

end BlockfileMetadataIndex

/-! ## A conforming in-memory store

The `Blockfile` trait implementations live outside the analysed source; the
end-to-end properties quantify over an index backed by a store honouring the
keyed-store contract. -/

/-- State of the in-memory store: a key/value association list. -/
abbrev StoreState := List (BlockfileKey × Value)

/-- Association-list lookup for the in-memory store. -/
def lookupStore : StoreState → BlockfileKey → Option Value
  | [], _ => none
  | (k1, v1) :: rest, k => if k1 = k then some v1 else lookupStore rest k

/-- Replace-or-append insertion for the in-memory store. -/
def insertStore : StoreState → BlockfileKey → Value → StoreState
  | [], k, v => [(k, v)]
  | (k1, v1) :: rest, k, v =>
      if k1 = k then (k, v) :: rest else (k1, v1) :: insertStore rest k v

/-- Modelled from the spec: the keyed-store collaborator contract of §6 (as
realised by the in-memory `HashMapBlockfile` test double, which is not part of
the analysed source) — `get` returns the stored value or fails when the key is
absent, `set` replaces or creates the stored value, and `begin`/`commit`
always succeed. -/
def hashMapStoreOps : BlockfileOps StoreState where
  get := fun s k =>
    match lookupStore s k with
    | some v => Except.ok v
    | none => Except.error 0
  set := fun s k v => (insertStore s k v, Except.ok ())
  begin_transaction := fun s => (s, Except.ok ())
  commit_transaction := fun s => (s, Except.ok ())

/-- A blockfile stub whose `get` and `set` always fail with error payload 7,
while its transaction calls succeed. -/
def failingGetSetOps : BlockfileOps Unit where
  get := fun _ _ => Except.error 7
  set := fun s _ _ => (s, Except.error 7)
  begin_transaction := fun s => (s, Except.ok ())
  commit_transaction := fun s => (s, Except.ok ())

/-- A blockfile stub whose transaction calls fail with error payload 9. -/
def failingTransactionOps : BlockfileOps Unit where
  get := fun _ _ => Except.error 7
  set := fun s _ _ => (s, Except.ok ())
  begin_transaction := fun s => (s, Except.error 9)
  commit_transaction := fun s => (s, Except.error 9)

/-- A blockfile stub over the in-memory state whose `set` always fails without
writing, while `get` reads the state and the transaction calls succeed. -/
def rejectingSetOps : BlockfileOps StoreState where
  get := fun s k =>
    match lookupStore s k with
    | some v => Except.ok v
    | none => Except.error 0
  set := fun s _ _ => (s, Except.error 3)
  begin_transaction := fun s => (s, Except.ok ())
  commit_transaction := fun s => (s, Except.ok ())

/-- Index states reachable through the public protocol: the freshly
constructed index, closed under the four state-mutating operations with
arbitrary arguments (failed calls included; a panicking `set`/`delete` yields
no successor state, and `get` takes the index immutably). -/
inductive Reachable (ops : BlockfileOps σ) : BlockfileMetadataIndex σ → Prop
  | init (s0 : σ) : Reachable ops (BlockfileMetadataIndex.new s0)
  | step_begin {i : BlockfileMetadataIndex σ} : Reachable ops i →
      Reachable ops (BlockfileMetadataIndex.begin_transaction ops i).1
  | step_commit {i : BlockfileMetadataIndex σ} : Reachable ops i →
      Reachable ops (BlockfileMetadataIndex.commit_transaction ops i).1
  | step_set {i j : BlockfileMetadataIndex σ} {k : String} {v : MetadataIndexValue}
      {o : Nat} {r : Except DynChromaError Unit} : Reachable ops i →
      BlockfileMetadataIndex.set ops i k v o = some (j, r) → Reachable ops j
  | step_delete {i j : BlockfileMetadataIndex σ} {k : String} {v : MetadataIndexValue}
      {o : Nat} {r : Except DynChromaError Unit} : Reachable ops i →
      BlockfileMetadataIndex.delete ops i k v o = some (j, r) → Reachable ops j

/-! ## Helper lemmas on the association-list maps -/

theorem lookupBuf_insertBuf_self (l : List (BlockfileKey × Finset ℕ)) (k : BlockfileKey)
    (v : Finset ℕ) : lookupBuf (insertBuf l k v) k = some v := by
  induction l with
  | nil => simp [insertBuf, lookupBuf]
  | cons hd tl ih =>
      obtain ⟨k1, v1⟩ := hd
      by_cases h : k1 = k
      · simp [insertBuf, lookupBuf, h]
      · simp [insertBuf, lookupBuf, h, ih]

theorem insertBuf_self_of_lookup {l : List (BlockfileKey × Finset ℕ)} {k : BlockfileKey}
    {v : Finset ℕ} (h : lookupBuf l k = some v) : insertBuf l k v = l := by
  induction l with
  | nil => simp [lookupBuf] at h
  | cons hd tl ih =>
      obtain ⟨k1, v1⟩ := hd
      by_cases hk : k1 = k
      · subst hk
        simp [lookupBuf] at h
        simp [insertBuf, h]
      · simp [lookupBuf, hk] at h
        simp [insertBuf, hk, ih h]

theorem insertBuf_insertBuf (l : List (BlockfileKey × Finset ℕ)) (k : BlockfileKey)
    (v w : Finset ℕ) : insertBuf (insertBuf l k v) k w = insertBuf l k w := by
  induction l with
  | nil => simp [insertBuf]
  | cons hd tl ih =>
      obtain ⟨k1, v1⟩ := hd
      by_cases h : k1 = k
      · simp [insertBuf, h]
      · simp [insertBuf, h, ih]

theorem lookupStore_insertStore_self (s : StoreState) (k : BlockfileKey) (v : Value) :
    lookupStore (insertStore s k v) k = some v := by
  induction s with
  | nil => simp [insertStore, lookupStore]
  | cons hd tl ih =>
      obtain ⟨k1, v1⟩ := hd
      by_cases h : k1 = k
      · simp [insertStore, lookupStore, h]
      · simp [insertStore, lookupStore, h, ih]

/-- After `look_up_key_and_populate_uncommitted_rbms`, the staging buffer always
holds an entry for the key: either it already did, or one was just inserted
(seeded from the store value or from an empty bitmap). -/
theorem lookupBuf_after_populate (ops : BlockfileOps σ) (idx : BlockfileMetadataIndex σ)
    (key : BlockfileKey) :
    (lookupBuf (BlockfileMetadataIndex.look_up_key_and_populate_uncommitted_rbms
        ops idx key).uncommitted_rbms key).isSome = true := by
  unfold BlockfileMetadataIndex.look_up_key_and_populate_uncommitted_rbms
  by_cases h : containsBuf idx.uncommitted_rbms key
  · rw [if_pos h]
    simpa [containsBuf] using h
  · rw [if_neg h]
    cases hg : ops.get idx.blockfile key with
    | ok w => cases w <;> simp [hg, lookupBuf_insertBuf_self]
    | error e => simp [hg, lookupBuf_insertBuf_self]

/-! ## Claims -/

/-- **C2.** `begin_transaction` and `get` fail with `InTransaction` exactly when
the transaction flag is open at the call, and `set`, `delete`,
`commit_transaction` fail with `NotInTransaction` exactly when it is closed; in
the wrong state the operation returns that error with the index state (flag,
buffer, wrapped blockfile) untouched. -/
theorem guard_errors_iff_transaction_state (ops : BlockfileOps σ)
    (idx : BlockfileMetadataIndex σ) (k : String) (v : MetadataIndexValue) (o : Nat) :
    (((BlockfileMetadataIndex.begin_transaction ops idx).2 =
        Except.error (DynChromaError.meta MetadataIndexError.InTransaction)) ↔
      idx.in_transaction = true) ∧
    (idx.in_transaction = true →
      BlockfileMetadataIndex.begin_transaction ops idx =
        (idx, Except.error (DynChromaError.meta MetadataIndexError.InTransaction))) ∧
    ((BlockfileMetadataIndex.get ops idx k v =
        Except.error (DynChromaError.meta MetadataIndexError.InTransaction)) ↔
      idx.in_transaction = true) ∧
    ((∃ j, BlockfileMetadataIndex.set ops idx k v o =
        some (j, Except.error (DynChromaError.meta MetadataIndexError.NotInTransaction))) ↔
      idx.in_transaction = false) ∧
    (idx.in_transaction = false →
      BlockfileMetadataIndex.set ops idx k v o =
        some (idx, Except.error (DynChromaError.meta MetadataIndexError.NotInTransaction))) ∧
    ((∃ j, BlockfileMetadataIndex.delete ops idx k v o =
        some (j, Except.error (DynChromaError.meta MetadataIndexError.NotInTransaction))) ↔
      idx.in_transaction = false) ∧
    (idx.in_transaction = false →
      BlockfileMetadataIndex.delete ops idx k v o =
        some (idx, Except.error (DynChromaError.meta MetadataIndexError.NotInTransaction))) ∧
    (((BlockfileMetadataIndex.commit_transaction ops idx).2 =
        Except.error (DynChromaError.meta MetadataIndexError.NotInTransaction)) ↔
      idx.in_transaction = false) ∧
    (idx.in_transaction = false →
      BlockfileMetadataIndex.commit_transaction ops idx =
        (idx, Except.error (DynChromaError.meta MetadataIndexError.NotInTransaction))) := by
  cases hi : idx.in_transaction with
  | false =>
      refine ⟨?_, by intro hf; exact absurd hf (by decide), ?_, ?_, ?_, ?_, ?_, ?_, ?_⟩
      · rcases hb : ops.begin_transaction idx.blockfile with ⟨s, r⟩
        cases r <;> simp [BlockfileMetadataIndex.begin_transaction, hi, hb]
      · cases hg : ops.get idx.blockfile (kv_to_blockfile_key k v) with
        | ok w => cases w <;> simp [BlockfileMetadataIndex.get, hi, hg]
        | error e => simp [BlockfileMetadataIndex.get, hi, hg]
      · exact ⟨fun _ => rfl, fun _ => ⟨idx, by simp [BlockfileMetadataIndex.set, hi]⟩⟩
      · simp [BlockfileMetadataIndex.set, hi]
      · exact ⟨fun _ => rfl, fun _ => ⟨idx, by simp [BlockfileMetadataIndex.delete, hi]⟩⟩
      · simp [BlockfileMetadataIndex.delete, hi]
      · simp [BlockfileMetadataIndex.commit_transaction, hi]
      · simp [BlockfileMetadataIndex.commit_transaction, hi]
  | true =>
      refine ⟨by simp [BlockfileMetadataIndex.begin_transaction, hi],
        by simp [BlockfileMetadataIndex.begin_transaction, hi],
        by simp [BlockfileMetadataIndex.get, hi], ?_,
        by intro hf; exact absurd hf (by decide), ?_,
        by intro hf; exact absurd hf (by decide), ?_,
        by intro hf; exact absurd hf (by decide)⟩
      · refine iff_of_false ?_ (by simp [hi])
        rintro ⟨j, hj⟩
        rcases hl : lookupBuf (BlockfileMetadataIndex.look_up_key_and_populate_uncommitted_rbms ops idx
            (kv_to_blockfile_key k v)).uncommitted_rbms (kv_to_blockfile_key k v) with _ | rbm
        · simp [BlockfileMetadataIndex.set, hi, hl] at hj
        · by_cases ho : o < 2 ^ 32 <;> simp [BlockfileMetadataIndex.set, hi, hl, ho] at hj
      · refine iff_of_false ?_ (by simp [hi])
        rintro ⟨j, hj⟩
        rcases hl : lookupBuf (BlockfileMetadataIndex.look_up_key_and_populate_uncommitted_rbms ops idx
            (kv_to_blockfile_key k v)).uncommitted_rbms (kv_to_blockfile_key k v) with _ | rbm
        · simp [BlockfileMetadataIndex.delete, hi, hl] at hj
        · by_cases ho : o < 2 ^ 32 <;> simp [BlockfileMetadataIndex.delete, hi, hl, ho] at hj
      · rcases hc : ops.commit_transaction
            (BlockfileMetadataIndex.flushStore ops idx.uncommitted_rbms idx.blockfile) with ⟨s, r⟩
        cases r <;> simp [BlockfileMetadataIndex.commit_transaction, hi, hc]

/-- Closed witness for the hypotheses of the C2 theorem: both transaction
states exercised on a concrete index over the in-memory store. -/
theorem guard_errors_iff_transaction_state_witness :
    BlockfileMetadataIndex.set hashMapStoreOps (BlockfileMetadataIndex.new ([] : StoreState))
        "f" (MetadataIndexValue.Bool true) 1 =
      some (BlockfileMetadataIndex.new ([] : StoreState),
        Except.error (DynChromaError.meta MetadataIndexError.NotInTransaction)) ∧
    BlockfileMetadataIndex.begin_transaction hashMapStoreOps
        ⟨([] : StoreState), true, []⟩ =
      (⟨([] : StoreState), true, []⟩,
        Except.error (DynChromaError.meta MetadataIndexError.InTransaction)) :=
  ⟨(guard_errors_iff_transaction_state hashMapStoreOps
      (BlockfileMetadataIndex.new ([] : StoreState)) "f" (MetadataIndexValue.Bool true) 1).2.2.2.2.1
      rfl,
   (guard_errors_iff_transaction_state hashMapStoreOps
      ⟨([] : StoreState), true, []⟩ "f" (MetadataIndexValue.Bool true) 1).2.1 rfl⟩

/-- `look_up_key_and_populate_uncommitted_rbms` only ever touches the staging
buffer: the wrapped blockfile state and the transaction flag are preserved. -/
theorem populate_preserves_flag_and_blockfile (ops : BlockfileOps σ)
    (idx : BlockfileMetadataIndex σ) (key : BlockfileKey) :
    (BlockfileMetadataIndex.look_up_key_and_populate_uncommitted_rbms
        ops idx key).in_transaction = idx.in_transaction ∧
    (BlockfileMetadataIndex.look_up_key_and_populate_uncommitted_rbms
        ops idx key).blockfile = idx.blockfile := by
  unfold BlockfileMetadataIndex.look_up_key_and_populate_uncommitted_rbms
  by_cases h : containsBuf idx.uncommitted_rbms key
  · rw [if_pos h]; exact ⟨rfl, rfl⟩
  · rw [if_neg h]
    cases hg : ops.get idx.blockfile key with
    | ok w => cases w <;> simp
    | error e => simp

/-- **C9.** Inside a transaction, `set` and `delete` never panic when the
offset fits in an unsigned 32-bit integer, and always panic (modelled as
`none`, the `try_into().unwrap()` conversion) when it does not. -/
theorem set_delete_offset_u32_bound (ops : BlockfileOps σ)
    (idx : BlockfileMetadataIndex σ) (k : String) (v : MetadataIndexValue) (o : Nat)
    (h : idx.in_transaction = true) :
    (o ≤ 2 ^ 32 - 1 →
      (BlockfileMetadataIndex.set ops idx k v o).isSome = true ∧
      (BlockfileMetadataIndex.delete ops idx k v o).isSome = true) ∧
    (2 ^ 32 - 1 < o →
      BlockfileMetadataIndex.set ops idx k v o = none ∧
      BlockfileMetadataIndex.delete ops idx k v o = none) := by
  have hpop := lookupBuf_after_populate ops idx (kv_to_blockfile_key k v)
  rcases hlk : lookupBuf (BlockfileMetadataIndex.look_up_key_and_populate_uncommitted_rbms
      ops idx (kv_to_blockfile_key k v)).uncommitted_rbms (kv_to_blockfile_key k v)
    with _ | rbm
  · rw [hlk] at hpop; simp at hpop
  · constructor
    · intro hb
      have hlt : o < 4294967296 := by omega
      exact ⟨by simp [BlockfileMetadataIndex.set, h, hlk, hlt],
             by simp [BlockfileMetadataIndex.delete, h, hlk, hlt]⟩
    · intro hb
      have hlt : ¬o < 4294967296 := by omega
      exact ⟨by simp [BlockfileMetadataIndex.set, h, hlk, hlt],
             by simp [BlockfileMetadataIndex.delete, h, hlk, hlt]⟩

/-- Closed witness for the C9 theorem: a concrete in-transaction index where a
small offset succeeds and an offset of `2^32` panics. -/
theorem set_delete_offset_u32_bound_witness :
    (BlockfileMetadataIndex.set hashMapStoreOps
        ⟨([] : StoreState), true, []⟩ "f" (MetadataIndexValue.Bool true) 1).isSome = true ∧
    BlockfileMetadataIndex.set hashMapStoreOps
        ⟨([] : StoreState), true, []⟩ "f" (MetadataIndexValue.Bool true) (2 ^ 32) = none :=
  ⟨((set_delete_offset_u32_bound hashMapStoreOps ⟨([] : StoreState), true, []⟩ "f"
      (MetadataIndexValue.Bool true) 1 rfl).1 (by norm_num)).1,
   ((set_delete_offset_u32_bound hashMapStoreOps ⟨([] : StoreState), true, []⟩ "f"
      (MetadataIndexValue.Bool true) (2 ^ 32) rfl).2 (by norm_num)).1⟩

/-- **C10.** `look_up_key_and_populate_uncommitted_rbms` always leaves an entry
for the key in the staging buffer, so the `uncommitted_rbms.get_mut(&key)
.unwrap()` that follows it in `set`/`delete` cannot panic: with the
in-transaction guard passed, a panic (modelled as `none`) can only come from
the `usize → u32` conversion of an offset `≥ 2^32`. -/
theorem get_mut_unwrap_unreachable (ops : BlockfileOps σ)
    (idx : BlockfileMetadataIndex σ) (bk : BlockfileKey) (k : String)
    (v : MetadataIndexValue) (o : Nat) :
    containsBuf (BlockfileMetadataIndex.look_up_key_and_populate_uncommitted_rbms
        ops idx bk).uncommitted_rbms bk = true ∧
    (idx.in_transaction = true → BlockfileMetadataIndex.set ops idx k v o = none →
      2 ^ 32 ≤ o) ∧
    (idx.in_transaction = true → BlockfileMetadataIndex.delete ops idx k v o = none →
      2 ^ 32 ≤ o) := by
  have hpop := lookupBuf_after_populate ops idx (kv_to_blockfile_key k v)
  rcases hlk : lookupBuf (BlockfileMetadataIndex.look_up_key_and_populate_uncommitted_rbms
      ops idx (kv_to_blockfile_key k v)).uncommitted_rbms (kv_to_blockfile_key k v)
    with _ | rbm
  · rw [hlk] at hpop; simp at hpop
  · refine ⟨lookupBuf_after_populate ops idx bk, ?_, ?_⟩
    · intro hi hnone
      simp [BlockfileMetadataIndex.set, hi, hlk] at hnone
      omega
    · intro hi hnone
      simp [BlockfileMetadataIndex.delete, hi, hlk] at hnone
      omega

/-- Closed witness for the C10 theorem: a panic of `set` on a concrete
in-transaction index forces the offset above the u32 range. -/
theorem get_mut_unwrap_unreachable_witness :
    containsBuf (BlockfileMetadataIndex.look_up_key_and_populate_uncommitted_rbms
        hashMapStoreOps (BlockfileMetadataIndex.new ([] : StoreState))
        (kv_to_blockfile_key "f" (MetadataIndexValue.Bool true))).uncommitted_rbms
      (kv_to_blockfile_key "f" (MetadataIndexValue.Bool true)) = true ∧
    2 ^ 32 ≤ 2 ^ 32 :=
  ⟨(get_mut_unwrap_unreachable hashMapStoreOps
      (BlockfileMetadataIndex.new ([] : StoreState))
      (kv_to_blockfile_key "f" (MetadataIndexValue.Bool true)) "f"
      (MetadataIndexValue.Bool true) 1).1,
   (get_mut_unwrap_unreachable hashMapStoreOps
      ⟨([] : StoreState), true, []⟩
      (kv_to_blockfile_key "f" (MetadataIndexValue.Bool true)) "f"
      (MetadataIndexValue.Bool true) (2 ^ 32)).2.1 rfl (by decide)⟩

/-- **C3.** Seed-on-first-touch: the first `set`/`delete` touching a composite
key seeds the staging entry from the committed posting set (or from an empty
set when the store has none) before applying the mutation; a key already
staged is mutated in place, with a result that does not mention the store's
`get` at all (committed state is not re-read). -/
theorem staging_seed_on_first_touch (ops : BlockfileOps σ)
    (idx : BlockfileMetadataIndex σ) (bk : BlockfileKey) (k : String)
    (v : MetadataIndexValue) (o : Nat) (r : Finset ℕ) (e : Nat) :
    (containsBuf idx.uncommitted_rbms bk = false →
      ops.get idx.blockfile bk = Except.ok (Value.RoaringBitmapValue r) →
      BlockfileMetadataIndex.look_up_key_and_populate_uncommitted_rbms ops idx bk =
        { idx with uncommitted_rbms := insertBuf idx.uncommitted_rbms bk r }) ∧
    (containsBuf idx.uncommitted_rbms bk = false →
      ops.get idx.blockfile bk = Except.error e →
      BlockfileMetadataIndex.look_up_key_and_populate_uncommitted_rbms ops idx bk =
        { idx with uncommitted_rbms := insertBuf idx.uncommitted_rbms bk ∅ }) ∧
    (containsBuf idx.uncommitted_rbms bk = true →
      BlockfileMetadataIndex.look_up_key_and_populate_uncommitted_rbms ops idx bk = idx) ∧
    (idx.in_transaction = true → o < 2 ^ 32 →
      lookupBuf idx.uncommitted_rbms (kv_to_blockfile_key k v) = some r →
      BlockfileMetadataIndex.set ops idx k v o =
        some ({ idx with uncommitted_rbms := insertBuf idx.uncommitted_rbms (kv_to_blockfile_key k v) (insert o r) },
          Except.ok ()) ∧
      BlockfileMetadataIndex.delete ops idx k v o =
        some ({ idx with uncommitted_rbms := insertBuf idx.uncommitted_rbms (kv_to_blockfile_key k v) (Finset.erase r o) },
          Except.ok ())) := by
  refine ⟨?_, ?_, ?_, ?_⟩
  · intro hc hg
    simp [BlockfileMetadataIndex.look_up_key_and_populate_uncommitted_rbms, hc, hg]
  · intro hc hg
    simp [BlockfileMetadataIndex.look_up_key_and_populate_uncommitted_rbms, hc, hg]
  · intro hc
    simp [BlockfileMetadataIndex.look_up_key_and_populate_uncommitted_rbms, hc]
  · intro hi hlt hr
    have hc : containsBuf idx.uncommitted_rbms (kv_to_blockfile_key k v) = true := by
      simp [containsBuf, hr]
    constructor
    · simp [BlockfileMetadataIndex.set, hi,
        BlockfileMetadataIndex.look_up_key_and_populate_uncommitted_rbms, hc, hr]
      all_goals omega
    · simp [BlockfileMetadataIndex.delete, hi,
        BlockfileMetadataIndex.look_up_key_and_populate_uncommitted_rbms, hc, hr]
      all_goals omega

/-- Closed witness for the C3 theorem: first touch of a key over an empty
in-memory store seeds an empty entry; a staged key is mutated in place. -/
theorem staging_seed_on_first_touch_witness :
    BlockfileMetadataIndex.look_up_key_and_populate_uncommitted_rbms hashMapStoreOps
        ⟨([] : StoreState), true, []⟩ (kv_to_blockfile_key "f" (MetadataIndexValue.Bool true)) =
      ⟨([] : StoreState), true,
        [(kv_to_blockfile_key "f" (MetadataIndexValue.Bool true), (∅ : Finset ℕ))]⟩ ∧
    BlockfileMetadataIndex.set hashMapStoreOps
        ⟨([] : StoreState), true,
          [(kv_to_blockfile_key "f" (MetadataIndexValue.Bool true), ({2} : Finset ℕ))]⟩
        "f" (MetadataIndexValue.Bool true) 1 =
      some (⟨([] : StoreState), true,
          [(kv_to_blockfile_key "f" (MetadataIndexValue.Bool true),
            insert 1 ({2} : Finset ℕ))]⟩,
        Except.ok ()) :=
  ⟨(staging_seed_on_first_touch hashMapStoreOps ⟨([] : StoreState), true, []⟩
      (kv_to_blockfile_key "f" (MetadataIndexValue.Bool true)) "f"
      (MetadataIndexValue.Bool true) 1 ∅ 0).2.1 rfl rfl,
   ((staging_seed_on_first_touch hashMapStoreOps
      ⟨([] : StoreState), true,
        [(kv_to_blockfile_key "f" (MetadataIndexValue.Bool true), ({2} : Finset ℕ))]⟩
      (kv_to_blockfile_key "f" (MetadataIndexValue.Bool true)) "f"
      (MetadataIndexValue.Bool true) 1 ({2} : Finset ℕ) 0).2.2.2 rfl (by norm_num)
      (by simp [lookupBuf])).1⟩

/-- A non-panicking `set` call never changes the transaction flag. -/
theorem set_some_preserves_flag (ops : BlockfileOps σ) {i j : BlockfileMetadataIndex σ}
    {k : String} {v : MetadataIndexValue} {o : Nat} {r2 : Except DynChromaError Unit}
    (hset : BlockfileMetadataIndex.set ops i k v o = some (j, r2)) :
    j.in_transaction = i.in_transaction := by
  cases hf : i.in_transaction with
  | false =>
      simp [BlockfileMetadataIndex.set, hf] at hset
      rw [← hset.1]
      exact hf
  | true =>
      rcases hlk : lookupBuf (BlockfileMetadataIndex.look_up_key_and_populate_uncommitted_rbms
          ops i (kv_to_blockfile_key k v)).uncommitted_rbms (kv_to_blockfile_key k v)
        with _ | rbm
      · simp [BlockfileMetadataIndex.set, hf, hlk] at hset
      · by_cases hlt : o < 4294967296
        · simp [BlockfileMetadataIndex.set, hf, hlk, hlt] at hset
          rw [← hset.1]
          exact (populate_preserves_flag_and_blockfile ops i (kv_to_blockfile_key k v)).1.trans hf
        · simp [BlockfileMetadataIndex.set, hf, hlk, hlt] at hset

/-- A non-panicking `delete` call never changes the transaction flag. -/
theorem delete_some_preserves_flag (ops : BlockfileOps σ) {i j : BlockfileMetadataIndex σ}
    {k : String} {v : MetadataIndexValue} {o : Nat} {r2 : Except DynChromaError Unit}
    (hdel : BlockfileMetadataIndex.delete ops i k v o = some (j, r2)) :
    j.in_transaction = i.in_transaction := by
  cases hf : i.in_transaction with
  | false =>
      simp [BlockfileMetadataIndex.delete, hf] at hdel
      rw [← hdel.1]
      exact hf
  | true =>
      rcases hlk : lookupBuf (BlockfileMetadataIndex.look_up_key_and_populate_uncommitted_rbms
          ops i (kv_to_blockfile_key k v)).uncommitted_rbms (kv_to_blockfile_key k v)
        with _ | rbm
      · simp [BlockfileMetadataIndex.delete, hf, hlk] at hdel
      · by_cases hlt : o < 4294967296
        · simp [BlockfileMetadataIndex.delete, hf, hlk, hlt] at hdel
          rw [← hdel.1]
          exact (populate_preserves_flag_and_blockfile ops i (kv_to_blockfile_key k v)).1.trans hf
        · simp [BlockfileMetadataIndex.delete, hf, hlk, hlt] at hdel

/-- **C7.** Within an open transaction, `set` of an offset already in the
staged posting set and `delete` of an offset not in it succeed and leave the
index completely unchanged (idempotent no-ops), and two consecutive identical
`set` calls end in the same state as one. -/
theorem staged_mutations_idempotent (ops : BlockfileOps σ)
    (idx i1 : BlockfileMetadataIndex σ) (k : String) (v : MetadataIndexValue)
    (o : Nat) (r : Finset ℕ) (hi : idx.in_transaction = true) (hlt : o < 2 ^ 32) :
    (lookupBuf idx.uncommitted_rbms (kv_to_blockfile_key k v) = some r → o ∈ r →
      BlockfileMetadataIndex.set ops idx k v o = some (idx, Except.ok ())) ∧
    (lookupBuf idx.uncommitted_rbms (kv_to_blockfile_key k v) = some r → o ∉ r →
      BlockfileMetadataIndex.delete ops idx k v o = some (idx, Except.ok ())) ∧
    (BlockfileMetadataIndex.set ops idx k v o = some (i1, Except.ok ()) →
      BlockfileMetadataIndex.set ops i1 k v o = some (i1, Except.ok ())) := by
  have hlt2 : o < 4294967296 := by omega
  obtain ⟨sb, st, su⟩ := idx
  have hst : st = true := hi
  subst hst
  refine ⟨?_, ?_, ?_⟩
  · intro hr ho
    have hr2 : lookupBuf su (kv_to_blockfile_key k v) = some r := hr
    have hc : containsBuf su (kv_to_blockfile_key k v) = true := by
      simp [containsBuf, hr2]
    have h1 : insert o r = r := Finset.insert_eq_self.mpr ho
    have h2 := insertBuf_self_of_lookup hr2
    simp [BlockfileMetadataIndex.set, hlt2,
      BlockfileMetadataIndex.look_up_key_and_populate_uncommitted_rbms, hc, hr2, h1, h2]
  · intro hr ho
    have hr2 : lookupBuf su (kv_to_blockfile_key k v) = some r := hr
    have hc : containsBuf su (kv_to_blockfile_key k v) = true := by
      simp [containsBuf, hr2]
    have h1 : Finset.erase r o = r := Finset.erase_eq_self.mpr ho
    have h2 := insertBuf_self_of_lookup hr2
    simp [BlockfileMetadataIndex.delete, hlt2,
      BlockfileMetadataIndex.look_up_key_and_populate_uncommitted_rbms, hc, hr2, h1, h2]
  · intro hset
    have hpop := lookupBuf_after_populate ops ⟨sb, true, su⟩ (kv_to_blockfile_key k v)
    rcases hlk : lookupBuf (BlockfileMetadataIndex.look_up_key_and_populate_uncommitted_rbms
        ops ⟨sb, true, su⟩ (kv_to_blockfile_key k v)).uncommitted_rbms (kv_to_blockfile_key k v)
      with _ | rbm
    · rw [hlk] at hpop; simp at hpop
    · simp [BlockfileMetadataIndex.set, hlk, hlt2] at hset
      have hflag : i1.in_transaction = true := by
        rw [← hset]
        exact (populate_preserves_flag_and_blockfile ops ⟨sb, true, su⟩
          (kv_to_blockfile_key k v)).1
      have hbuf : lookupBuf i1.uncommitted_rbms (kv_to_blockfile_key k v) =
          some (insert o rbm) := by
        rw [← hset]
        exact lookupBuf_insertBuf_self _ _ _
      have hc1 : containsBuf i1.uncommitted_rbms (kv_to_blockfile_key k v) = true := by
        simp [containsBuf, hbuf]
      have hib : insertBuf i1.uncommitted_rbms (kv_to_blockfile_key k v)
          (insert o (insert o rbm)) = i1.uncommitted_rbms := by
        rw [Finset.insert_idem, ← hset]
        exact insertBuf_insertBuf _ _ _ _
      obtain ⟨jb, jt, ju⟩ := i1
      have hjt : jt = true := hflag
      subst hjt
      have hbuf2 : lookupBuf ju (kv_to_blockfile_key k v) = some (insert o rbm) := hbuf
      have hc2 : containsBuf ju (kv_to_blockfile_key k v) = true := hc1
      have hib2 : insertBuf ju (kv_to_blockfile_key k v)
          (insert o (insert o rbm)) = ju := hib
      simp [BlockfileMetadataIndex.set, hlt2,
        BlockfileMetadataIndex.look_up_key_and_populate_uncommitted_rbms, hc2, hbuf2, hib2]
      exact insertBuf_self_of_lookup hbuf2

/-- Closed witness for the C7 theorem: on a concrete staged index, re-setting a
present offset is a no-op, and a second identical `set` is absorbed. -/
theorem staged_mutations_idempotent_witness :
    BlockfileMetadataIndex.set hashMapStoreOps
        ⟨([] : StoreState), true,
          [(kv_to_blockfile_key "f" (MetadataIndexValue.Bool true), ({1} : Finset ℕ))]⟩
        "f" (MetadataIndexValue.Bool true) 1 =
      some (⟨([] : StoreState), true,
          [(kv_to_blockfile_key "f" (MetadataIndexValue.Bool true), ({1} : Finset ℕ))]⟩,
        Except.ok ()) ∧
    BlockfileMetadataIndex.set hashMapStoreOps
        ⟨([] : StoreState), true,
          [(kv_to_blockfile_key "f" (MetadataIndexValue.Bool true), ({1} : Finset ℕ))]⟩
        "f" (MetadataIndexValue.Bool true) 1 =
      some (⟨([] : StoreState), true,
          [(kv_to_blockfile_key "f" (MetadataIndexValue.Bool true), ({1} : Finset ℕ))]⟩,
        Except.ok ()) :=
  ⟨(staged_mutations_idempotent hashMapStoreOps
      ⟨([] : StoreState), true,
        [(kv_to_blockfile_key "f" (MetadataIndexValue.Bool true), ({1} : Finset ℕ))]⟩
      ⟨([] : StoreState), true,
        [(kv_to_blockfile_key "f" (MetadataIndexValue.Bool true), ({1} : Finset ℕ))]⟩
      "f" (MetadataIndexValue.Bool true) 1 ({1} : Finset ℕ) rfl (by norm_num)).1
      (by simp [lookupBuf]) (by decide),
   (staged_mutations_idempotent hashMapStoreOps
      ⟨([] : StoreState), true, []⟩
      ⟨([] : StoreState), true,
        [(kv_to_blockfile_key "f" (MetadataIndexValue.Bool true), ({1} : Finset ℕ))]⟩
      "f" (MetadataIndexValue.Bool true) 1 (∅ : Finset ℕ) rfl (by norm_num)).2.2
      (by decide)⟩

/-- **C8.** In every reachable index state in which no transaction is open the
staging buffer is empty; a transaction opened next therefore starts with no
residual staged entries. -/
theorem closed_state_buffer_empty (ops : BlockfileOps σ)
    (i : BlockfileMetadataIndex σ) (h : Reachable ops i) :
    i.in_transaction = false → i.uncommitted_rbms = [] := by
  induction h with
  | init s0 => intro; rfl
  | step_begin hr ih =>
      rename_i i0
      cases hf : i0.in_transaction with
      | true => simp [BlockfileMetadataIndex.begin_transaction, hf]
      | false =>
          rcases hb : ops.begin_transaction i0.blockfile with ⟨s, r⟩
          cases r with
          | error e =>
              simp [BlockfileMetadataIndex.begin_transaction, hf, hb]
              exact ih hf
          | ok u => simp [BlockfileMetadataIndex.begin_transaction, hf, hb]
  | step_commit hr ih =>
      rename_i i0
      cases hf : i0.in_transaction with
      | false => simpa [BlockfileMetadataIndex.commit_transaction, hf] using ih
      | true =>
          rcases hc : ops.commit_transaction
              (BlockfileMetadataIndex.flushStore ops i0.uncommitted_rbms i0.blockfile)
            with ⟨s, r⟩
          cases r <;> simp [BlockfileMetadataIndex.commit_transaction, hf, hc]
  | step_set hr hs ih =>
      rename_i i0 j0 k0 v0 o0 r0
      cases hf : i0.in_transaction with
      | false =>
          simp [BlockfileMetadataIndex.set, hf] at hs
          rw [← hs.1]
          exact fun _ => ih hf
      | true =>
          intro hj
          rw [set_some_preserves_flag ops hs] at hj
          exact absurd (hj.symm.trans hf) (by simp)
  | step_delete hr hs ih =>
      rename_i i0 j0 k0 v0 o0 r0
      cases hf : i0.in_transaction with
      | false =>
          simp [BlockfileMetadataIndex.delete, hf] at hs
          rw [← hs.1]
          exact fun _ => ih hf
      | true =>
          intro hj
          rw [delete_some_preserves_flag ops hs] at hj
          exact absurd (hj.symm.trans hf) (by simp)

/-- Closed witness for the C8 theorem: the state after `begin; commit` over the
in-memory store is reachable, closed, and has an empty staging buffer. -/
theorem closed_state_buffer_empty_witness :
    ((BlockfileMetadataIndex.commit_transaction hashMapStoreOps
        (BlockfileMetadataIndex.begin_transaction hashMapStoreOps
          (BlockfileMetadataIndex.new ([] : StoreState))).1).1).uncommitted_rbms = [] :=
  closed_state_buffer_empty hashMapStoreOps _
    (Reachable.step_commit (Reachable.step_begin (Reachable.init [])))
    (by decide)

/-- **C1 (counterexample).** Against a store whose `get` and `set` fail with
error payload 7: `get` reports the store failure as the index's own
`NotFoundError`; `set` succeeds after silently seeding an empty posting set
although the seeding read failed; `commit_transaction` succeeds although the
flushed store `set` failed. This refutes the claim that every store failure
during `get`, staging-buffer seeding, and the commit flush loop is returned to
the caller unchanged. -/
theorem store_failure_reinterpreted_counterexample :
    BlockfileMetadataIndex.get failingGetSetOps (BlockfileMetadataIndex.new ())
        "f" (MetadataIndexValue.Bool true) =
      Except.error (DynChromaError.meta MetadataIndexError.NotFoundError) ∧
    BlockfileMetadataIndex.set failingGetSetOps ⟨(), true, []⟩
        "f" (MetadataIndexValue.Bool true) 1 =
      some (⟨(), true, [(kv_to_blockfile_key "f" (MetadataIndexValue.Bool true),
          ({1} : Finset ℕ))]⟩,
        Except.ok ()) ∧
    BlockfileMetadataIndex.commit_transaction failingGetSetOps
        ⟨(), true, [(kv_to_blockfile_key "f" (MetadataIndexValue.Bool true),
          ({1} : Finset ℕ))]⟩ =
      (⟨(), false, []⟩, Except.ok ()) := by
  refine ⟨rfl, ?_, rfl⟩
  decide

/-- **C1 (amended).** Only the store failures of `begin_transaction`'s
store-begin and `commit_transaction`'s store-commit are propagated to the
caller with their payload unchanged. A store `get` failure during `get` is
reinterpreted as `NotFoundError`; a store `get` failure while seeding the
staging buffer is replaced by an empty posting set and the `set` call
succeeds; store `set` failures during the commit flush loop are ignored — the
reported outcome of `commit_transaction` depends only on the store-commit
result. -/
theorem store_failure_propagation_amended (ops : BlockfileOps σ)
    (idx : BlockfileMetadataIndex σ) (k : String) (v : MetadataIndexValue)
    (o : Nat) (e : Nat) (s : σ) :
    (idx.in_transaction = false →
      ops.begin_transaction idx.blockfile = (s, Except.error e) →
      BlockfileMetadataIndex.begin_transaction ops idx =
        ({ idx with blockfile := s }, Except.error (DynChromaError.store e))) ∧
    (idx.in_transaction = true →
      ops.commit_transaction
          (BlockfileMetadataIndex.flushStore ops idx.uncommitted_rbms idx.blockfile) =
        (s, Except.error e) →
      BlockfileMetadataIndex.commit_transaction ops idx =
        (⟨s, true, []⟩, Except.error (DynChromaError.store e))) ∧
    (idx.in_transaction = false →
      ops.get idx.blockfile (kv_to_blockfile_key k v) = Except.error e →
      BlockfileMetadataIndex.get ops idx k v =
        Except.error (DynChromaError.meta MetadataIndexError.NotFoundError)) ∧
    (idx.in_transaction = true → o < 2 ^ 32 →
      containsBuf idx.uncommitted_rbms (kv_to_blockfile_key k v) = false →
      ops.get idx.blockfile (kv_to_blockfile_key k v) = Except.error e →
      BlockfileMetadataIndex.set ops idx k v o =
        some ({ idx with uncommitted_rbms := insertBuf idx.uncommitted_rbms (kv_to_blockfile_key k v) (insert o ∅) },
          Except.ok ())) ∧
    (idx.in_transaction = true →
      (BlockfileMetadataIndex.commit_transaction ops idx).2 =
        (match (ops.commit_transaction
            (BlockfileMetadataIndex.flushStore ops idx.uncommitted_rbms idx.blockfile)).2 with
          | Except.ok _ => Except.ok ()
          | Except.error e2 => Except.error (DynChromaError.store e2))) := by
  refine ⟨?_, ?_, ?_, ?_, ?_⟩
  · intro hf hb
    simp [BlockfileMetadataIndex.begin_transaction, hf, hb]
  · intro hf hc
    simp [BlockfileMetadataIndex.commit_transaction, hf, hc]
  · intro hf hg
    simp [BlockfileMetadataIndex.get, hf, hg]
  · intro hf ho hc hg
    have ho2 : o < 4294967296 := by omega
    simp [BlockfileMetadataIndex.set, hf, ho2,
      BlockfileMetadataIndex.look_up_key_and_populate_uncommitted_rbms, hc, hg,
      lookupBuf_insertBuf_self, insertBuf_insertBuf]
  · intro hf
    rcases hc : ops.commit_transaction
        (BlockfileMetadataIndex.flushStore ops idx.uncommitted_rbms idx.blockfile) with ⟨s3, r⟩
    cases r <;> simp [BlockfileMetadataIndex.commit_transaction, hf, hc]

/-- Closed witness for the amended C1 theorem: a failing store-begin is
propagated with its payload, and a failing store `get` surfaces as
`NotFoundError`. -/
theorem store_failure_propagation_amended_witness :
    BlockfileMetadataIndex.begin_transaction failingTransactionOps
        (BlockfileMetadataIndex.new ()) =
      (BlockfileMetadataIndex.new (), Except.error (DynChromaError.store 9)) ∧
    BlockfileMetadataIndex.get failingGetSetOps (BlockfileMetadataIndex.new ())
        "f" (MetadataIndexValue.Bool true) =
      Except.error (DynChromaError.meta MetadataIndexError.NotFoundError) :=
  ⟨(store_failure_propagation_amended failingTransactionOps
      (BlockfileMetadataIndex.new ()) "f" (MetadataIndexValue.Bool true) 1 9 ()).1 rfl rfl,
   (store_failure_propagation_amended failingGetSetOps
      (BlockfileMetadataIndex.new ()) "f" (MetadataIndexValue.Bool true) 1 7 ()).2.2.1 rfl rfl⟩

/-- **C4 (counterexample).** Against a store whose `set` fails without writing
(`rejectingSetOps`), starting from the state reached by `begin; set` with one
staged pair, `commit_transaction` succeeds, closes the flag and clears the
buffer, yet the resulting store holds no value for the staged key: a staged
write was not applied to the store even though the call reported success,
refuting the all-or-nothing disjunction as stated. -/
theorem commit_ignores_staged_write_failure_counterexample :
    BlockfileMetadataIndex.set rejectingSetOps
        (BlockfileMetadataIndex.begin_transaction rejectingSetOps
          (BlockfileMetadataIndex.new ([] : StoreState))).1
        "f" (MetadataIndexValue.Bool true) 1 =
      some (⟨([] : StoreState), true,
          [(kv_to_blockfile_key "f" (MetadataIndexValue.Bool true), ({1} : Finset ℕ))]⟩,
        Except.ok ()) ∧
    BlockfileMetadataIndex.commit_transaction rejectingSetOps
        ⟨([] : StoreState), true,
          [(kv_to_blockfile_key "f" (MetadataIndexValue.Bool true), ({1} : Finset ℕ))]⟩ =
      (⟨([] : StoreState), false, []⟩, Except.ok ()) ∧
    lookupStore ([] : StoreState)
        (kv_to_blockfile_key "f" (MetadataIndexValue.Bool true)) = none := by
  refine ⟨?_, ?_, rfl⟩ <;> decide

/-- **C4 (amended).** `commit_transaction` outcomes: when the call succeeds, a
transaction was open, the staged pairs were each submitted to the store by the
flush loop (individual store `set` failures being ignored), the store commit
succeeded, and the buffer is cleared with the flag closed; when no transaction
is open it fails leaving the state untouched; when the store commit fails the
error is propagated and the flag and buffer are exactly as immediately before
the failing store-commit call — flag still open, buffer already drained
empty. -/
theorem commit_transaction_outcomes (ops : BlockfileOps σ)
    (idx : BlockfileMetadataIndex σ) (s2 : σ) (e : Nat) :
    ((BlockfileMetadataIndex.commit_transaction ops idx).2 = Except.ok () →
      idx.in_transaction = true ∧
      BlockfileMetadataIndex.commit_transaction ops idx =
        (⟨(ops.commit_transaction (BlockfileMetadataIndex.flushStore ops idx.uncommitted_rbms idx.blockfile)).1, false, []⟩,
          Except.ok ()) ∧
      (ops.commit_transaction
          (BlockfileMetadataIndex.flushStore ops idx.uncommitted_rbms idx.blockfile)).2 =
        Except.ok ()) ∧
    (idx.in_transaction = false →
      BlockfileMetadataIndex.commit_transaction ops idx =
        (idx, Except.error (DynChromaError.meta MetadataIndexError.NotInTransaction))) ∧
    (idx.in_transaction = true →
      ops.commit_transaction
          (BlockfileMetadataIndex.flushStore ops idx.uncommitted_rbms idx.blockfile) =
        (s2, Except.error e) →
      BlockfileMetadataIndex.commit_transaction ops idx =
        (⟨s2, true, []⟩, Except.error (DynChromaError.store e))) := by
  refine ⟨?_, ?_, ?_⟩
  · intro hok
    cases hf : idx.in_transaction with
    | false => simp [BlockfileMetadataIndex.commit_transaction, hf] at hok
    | true =>
        rcases hc : ops.commit_transaction
            (BlockfileMetadataIndex.flushStore ops idx.uncommitted_rbms idx.blockfile)
          with ⟨s3, r⟩
        cases r with
        | error e2 => simp [BlockfileMetadataIndex.commit_transaction, hf, hc] at hok
        | ok u => simp [BlockfileMetadataIndex.commit_transaction, hf, hc]
  · intro hf
    simp [BlockfileMetadataIndex.commit_transaction, hf]
  · intro hf hc
    simp [BlockfileMetadataIndex.commit_transaction, hf, hc]

/-- Closed witness for the amended C4 theorem: a successful concrete commit
over the in-memory store, and a store-commit failure leaving the flag open
with the buffer drained. -/
theorem commit_transaction_outcomes_witness :
    (BlockfileMetadataIndex.commit_transaction hashMapStoreOps
        ⟨([] : StoreState), true,
          [(kv_to_blockfile_key "f" (MetadataIndexValue.Bool true), ({1} : Finset ℕ))]⟩ =
      (⟨[(kv_to_blockfile_key "f" (MetadataIndexValue.Bool true),
          Value.RoaringBitmapValue ({1} : Finset ℕ))], false, []⟩,
        Except.ok ())) ∧
    BlockfileMetadataIndex.commit_transaction failingTransactionOps
        ⟨(), true, [(kv_to_blockfile_key "f" (MetadataIndexValue.Bool true),
          ({1} : Finset ℕ))]⟩ =
      (⟨(), true, []⟩, Except.error (DynChromaError.store 9)) :=
  ⟨by
    have h := (commit_transaction_outcomes hashMapStoreOps
      ⟨([] : StoreState), true,
        [(kv_to_blockfile_key "f" (MetadataIndexValue.Bool true), ({1} : Finset ℕ))]⟩
      [] 0).1 (by decide)
    exact h.2.1,
   (commit_transaction_outcomes failingTransactionOps
      ⟨(), true, [(kv_to_blockfile_key "f" (MetadataIndexValue.Bool true),
        ({1} : Finset ℕ))]⟩ () 9).2.2 rfl rfl⟩

/-- **C5.** For every field name, value, and u32 offset, starting from an
index over an in-memory store holding no committed posting set for the
composite key, `begin; set; commit; get` succeeds and returns a posting set of
cardinality 1 containing the offset. -/
theorem set_commit_get_roundtrip (m : StoreState) (f : String)
    (v : MetadataIndexValue) (o : Nat)
    (hm : lookupStore m (kv_to_blockfile_key f v) = none) (ho : o < 2 ^ 32) :
    ∃ i1 i2 i3 rbm,
      BlockfileMetadataIndex.begin_transaction hashMapStoreOps
          (BlockfileMetadataIndex.new m) = (i1, Except.ok ()) ∧
      BlockfileMetadataIndex.set hashMapStoreOps i1 f v o = some (i2, Except.ok ()) ∧
      BlockfileMetadataIndex.commit_transaction hashMapStoreOps i2 = (i3, Except.ok ()) ∧
      BlockfileMetadataIndex.get hashMapStoreOps i3 f v = Except.ok rbm ∧
      rbm.card = 1 ∧ o ∈ rbm := by
  have ho2 : o < 4294967296 := by omega
  refine ⟨⟨m, true, []⟩,
    ⟨m, true, [(kv_to_blockfile_key f v, insert o (∅ : Finset ℕ))]⟩,
    ⟨insertStore m (kv_to_blockfile_key f v)
      (Value.RoaringBitmapValue (insert o (∅ : Finset ℕ))), false, []⟩,
    insert o (∅ : Finset ℕ), ?_, ?_, ?_, ?_, ?_, ?_⟩
  · simp [BlockfileMetadataIndex.begin_transaction, BlockfileMetadataIndex.new,
      hashMapStoreOps]
  · simp [BlockfileMetadataIndex.set,
      BlockfileMetadataIndex.look_up_key_and_populate_uncommitted_rbms,
      hashMapStoreOps, containsBuf, lookupBuf, insertBuf, hm, ho2]
  · simp [BlockfileMetadataIndex.commit_transaction,
      BlockfileMetadataIndex.flushStore, hashMapStoreOps]
  · simp [BlockfileMetadataIndex.get, hashMapStoreOps, lookupStore_insertStore_self]
  · simp
  · simp

/-- Closed witness for the C5 theorem: the round trip at a concrete field,
value, and offset over the empty in-memory store. -/
theorem set_commit_get_roundtrip_witness :
    ∃ i1 i2 i3 rbm,
      BlockfileMetadataIndex.begin_transaction hashMapStoreOps
          (BlockfileMetadataIndex.new ([] : StoreState)) = (i1, Except.ok ()) ∧
      BlockfileMetadataIndex.set hashMapStoreOps i1 "f"
          (MetadataIndexValue.Bool true) 1 = some (i2, Except.ok ()) ∧
      BlockfileMetadataIndex.commit_transaction hashMapStoreOps i2 = (i3, Except.ok ()) ∧
      BlockfileMetadataIndex.get hashMapStoreOps i3 "f"
          (MetadataIndexValue.Bool true) = Except.ok rbm ∧
      rbm.card = 1 ∧ 1 ∈ rbm :=
  set_commit_get_roundtrip [] "f" (MetadataIndexValue.Bool true) 1 rfl (by norm_num)

/-- **C6.** For every field name, value, and u32 offset, starting from an
index over an in-memory store with no committed posting set for the composite
key, `begin; set; delete; commit; get` succeeds and returns an empty posting
set of cardinality 0 — not a `NotFound` error: the delete undoes the staged
set, and commit still writes the now-empty staged posting set to the store. -/
theorem set_delete_commit_get_empty (m : StoreState) (f : String)
    (v : MetadataIndexValue) (o : Nat)
    (hm : lookupStore m (kv_to_blockfile_key f v) = none) (ho : o < 2 ^ 32) :
    ∃ i1 i2 i3 i4 rbm,
      BlockfileMetadataIndex.begin_transaction hashMapStoreOps
          (BlockfileMetadataIndex.new m) = (i1, Except.ok ()) ∧
      BlockfileMetadataIndex.set hashMapStoreOps i1 f v o = some (i2, Except.ok ()) ∧
      BlockfileMetadataIndex.delete hashMapStoreOps i2 f v o = some (i3, Except.ok ()) ∧
      BlockfileMetadataIndex.commit_transaction hashMapStoreOps i3 = (i4, Except.ok ()) ∧
      BlockfileMetadataIndex.get hashMapStoreOps i4 f v = Except.ok rbm ∧
      rbm.card = 0 := by
  have ho2 : o < 4294967296 := by omega
  refine ⟨⟨m, true, []⟩,
    ⟨m, true, [(kv_to_blockfile_key f v, insert o (∅ : Finset ℕ))]⟩,
    ⟨m, true, [(kv_to_blockfile_key f v, (∅ : Finset ℕ))]⟩,
    ⟨insertStore m (kv_to_blockfile_key f v)
      (Value.RoaringBitmapValue (∅ : Finset ℕ)), false, []⟩,
    (∅ : Finset ℕ), ?_, ?_, ?_, ?_, ?_, ?_⟩
  · simp [BlockfileMetadataIndex.begin_transaction, BlockfileMetadataIndex.new,
      hashMapStoreOps]
  · simp [BlockfileMetadataIndex.set,
      BlockfileMetadataIndex.look_up_key_and_populate_uncommitted_rbms,
      hashMapStoreOps, containsBuf, lookupBuf, insertBuf, hm, ho2]
  · simp [BlockfileMetadataIndex.delete,
      BlockfileMetadataIndex.look_up_key_and_populate_uncommitted_rbms,
      hashMapStoreOps, containsBuf, lookupBuf, insertBuf, ho2,
      Finset.erase_insert (Finset.not_mem_empty o)]
  · simp [BlockfileMetadataIndex.commit_transaction,
      BlockfileMetadataIndex.flushStore, hashMapStoreOps]
  · simp [BlockfileMetadataIndex.get, hashMapStoreOps, lookupStore_insertStore_self]
  · simp

/-- Closed witness for the C6 theorem: set-then-delete of a concrete offset
over the empty in-memory store reads back as an empty posting set. -/
theorem set_delete_commit_get_empty_witness :
    ∃ i1 i2 i3 i4 rbm,
      BlockfileMetadataIndex.begin_transaction hashMapStoreOps
          (BlockfileMetadataIndex.new ([] : StoreState)) = (i1, Except.ok ()) ∧
      BlockfileMetadataIndex.set hashMapStoreOps i1 "f"
          (MetadataIndexValue.Bool true) 1 = some (i2, Except.ok ()) ∧
      BlockfileMetadataIndex.delete hashMapStoreOps i2 "f"
          (MetadataIndexValue.Bool true) 1 = some (i3, Except.ok ()) ∧
      BlockfileMetadataIndex.commit_transaction hashMapStoreOps i3 = (i4, Except.ok ()) ∧
      BlockfileMetadataIndex.get hashMapStoreOps i4 "f"
          (MetadataIndexValue.Bool true) = Except.ok rbm ∧
      rbm.card = 0 :=
  set_delete_commit_get_empty [] "f" (MetadataIndexValue.Bool true) 1 rfl (by norm_num)

end ChromaMetadataIndex
